import Mathlib

/-!
# Verification of the phono conversion request pipeline

A shallow embedding of the phono repository's conversion core:

* `src/file/file.go` — format registry data, `Pump` (input-format resolution from
  the file extension), `wavFormat.BuildSink` and `mp3Format.BuildSink`
  (parameter validation producing deferred sink constructors);
* `src/input/input.go` — the older `input` package variants
  (`wavFormat.Build`, `mp3Format.Build`, `HasExtension`) and the
  `controller.Convert` HTTP handler with its `cleanUp` helper;
* `src/form/encode.go` — `Encode.InputMaxSize`, `Encode.ParseSink`,
  `parseWAVSink`, `parseMP3Sink`, `parseIntValue`, `parseBoolValue`.

Pure Go functions become Lean functions; the HTTP handler becomes a pure
function of the request plus a record of injected collaborator outcomes
(multipart parsing, temp-file creation, pipeline run, seek/stat/copy,
cleanup close/remove), returning the response status together with the
trace of output-resource events, so that acquisition/release ordering is
provable.  Errors become `Except` values over an error taxonomy that keeps
each `fmt.Errorf` site as a distinct constructor with its formatted
payloads.  Machine integers (`int`, `int64`) are modelled as `Int`;
`strings.ToLower`/`ToUpper` are modelled by the ASCII case maps, which
agree with Go on every string the registry and the forms handle.
-/

deriving instance DecidableEq for Except

namespace Phono

/-- Model of Go `strings.ToLower` (ASCII range, which covers every
registered extension, format name and parameter keyword). -/
def strLower (s : String) : String :=
  ⟨s.data.map Char.toLower⟩

/-- Model of Go `strings.ToUpper` (ASCII range). -/
def strUpper (s : String) : String :=
  ⟨s.data.map Char.toUpper⟩

/-- Model of Go `strings.HasSuffix`. -/
def goHasSuffix (s suffix : String) : Bool :=
  suffix.data.isSuffixOf s.data

/-- Scan a reversed character list for the extension: Go `filepath.Ext`
walks the path backwards, stops at a path separator, and returns the
suffix from the first `'.'` it meets.  The result is the reversed
extension. -/
def extScanRev : List Char → Option (List Char)
  | [] => none
  | c :: rest =>
    if c = '/' then none
    else if c = '.' then some [c]
    else (extScanRev rest).map (fun l => c :: l)

/-- Model of Go `filepath.Ext`: the suffix beginning at the final dot in
the final path element; empty if there is none. -/
def filepathExt (s : String) : String :=
  match extScanRev s.data.reverse with
  | none => ""
  | some l => ⟨l.reverse⟩

/-- Model of Go `path.Base`: the last element of the path after stripping
trailing slashes; `"."` for the empty path, `"/"` for all-slash paths. -/
def pathBase (s : String) : String :=
  if s.data = [] then "."
  else
    let r := s.data.reverse.dropWhile (fun c => c = '/')
    let base := r.takeWhile (fun c => c ≠ '/')
    if base = [] then "/" else ⟨base.reverse⟩

/-- Numeric value of a digit list (most significant first). -/
def digitsVal (l : List Char) : Nat :=
  l.foldl (fun a c => a * 10 + (c.toNat - 48)) 0

/-- Model of Go `strconv.Atoi`: optional single sign, then a non-empty
run of decimal digits; values outside the `int64` range are rejected
(`ErrRange`), everything else malformed is rejected (`ErrSyntax`). -/
def goAtoi (s : String) : Option Int :=
  match s.data with
  | [] => none
  | c :: rest =>
    let signed : Bool × List Char :=
      if c = '-' then (true, rest)
      else if c = '+' then (false, rest)
      else (false, c :: rest)
    let neg := signed.1
    let ds := signed.2
    if ds = [] then none
    else if ds.all (fun d => d.isDigit) then
      let v := digitsVal ds
      if neg then
        if v ≤ 2 ^ 63 then some (-(v : Int)) else none
      else
        if v ≤ 2 ^ 63 - 1 then some (v : Int) else none
    else none

/-- Model of Go `strconv.ParseBool`: accepts exactly
`1, t, T, TRUE, true, True` and `0, f, F, FALSE, false, False`. -/
def goParseBool (s : String) : Option Bool :=
  if s = "1" ∨ s = "t" ∨ s = "T" ∨ s = "TRUE" ∨ s = "true" ∨ s = "True" then some true
  else if s = "0" ∨ s = "f" ∨ s = "F" ∨ s = "FALSE" ∨ s = "false" ∨ s = "False" then
    some false
  else none

/-- Returns `true` exactly when an `Except` carries an error (Go `err != nil`). -/
def isErr {ε α : Type} : Except ε α → Bool
  | .error _ => true
  | .ok _ => false

/-! ## Error taxonomy

Each constructor corresponds to one `fmt.Errorf` site of the sources,
keeping its formatted arguments as payloads. -/

/-- Validation errors raised by the sink builders
(`wavFormat.Build`/`BuildSink`, `mp3Format.Build`/`BuildSink`). -/
inductive BuildError
  /-- Error "Bit depth %v is not supported". -/
  | unsupportedBitDepth (v : Int)
  /-- Error "Channel mode %v is not supported". -/
  | unsupportedChannelMode (v : Int)
  /-- Error "VBR quality %v is not supported". -/
  | unsupportedVBRQuality (v : Int)
  /-- Error "Bit rate %v is not supported. Provide value between %d and %d". -/
  | unsupportedBitRate (v : Int)
  /-- file.go: "Bit rate mode %v is not supported";
      input.go: "VBR mode %v is not supported" -/
  | unsupportedBitRateMode (m : String)
  /-- Error "MP3 quality %v is not supported". -/
  | unsupportedQuality (v : Int)
  deriving DecidableEq, Repr

/-- Errors raised by format resolution and form parsing. -/
inductive ParseErr
  /-- file.go Pump: "File has unsupported extension: %v";
      encode.go ParseSink: "Unsupported format: %v";
      encode.go InputMaxSize: "Format %s not supported" -/
  | unsupportedFormat (name : String)
  /-- Error "%s not provided", or "Please provide bit rate mode". -/
  | notProvided (name : String)
  /-- Error "Failed parsing %s %s: %v". -/
  | malformedValue (name : String) (raw : String)
  /-- a sink-builder validation error propagated unchanged -/
  | build (e : BuildError)
  deriving DecidableEq, Repr

/-- Constructor tag of a `BuildError`, identifying its reason class
independent of the formatted payload. -/
def buildErrName : BuildError → Nat
  | .unsupportedBitDepth _ => 0
  | .unsupportedChannelMode _ => 1
  | .unsupportedVBRQuality _ => 2
  | .unsupportedBitRate _ => 3
  | .unsupportedBitRateMode _ => 4
  | .unsupportedQuality _ => 5

/-! ## Format registry data and encoder configurations -/

/-- Data of `wavFormat` (both `file.Wav` and `input.Wav` carry these
values).  `signal.BitDepth8/16/24/32` are the integers 8, 16, 24, 32. -/
structure WavFormatData where
  defaultExtension : String
  extensions : List String
  bitDepths : List Int
  deriving DecidableEq, Repr

/-- Data of `mp3Format` (both `file.Mp3` and `input.Mp3` carry these
values).  `mp3.Mono/Stereo/JointStereo` are the integers 0, 1, 2. -/
structure Mp3FormatData where
  defaultExtension : String
  extensions : List String
  minBitRate : Int
  maxBitRate : Int
  channelModes : List Int
  vbr : String
  cbr : String
  abr : String
  deriving DecidableEq, Repr

/-- Registry values of `file.Wav` / `input.Wav`. -/
def fileWav : WavFormatData :=
  { defaultExtension := ".wav"
    extensions := [".wav", ".wave"]
    bitDepths := [8, 16, 24, 32] }

/-- Registry values of `file.Mp3`. -/
def fileMp3 : Mp3FormatData :=
  { defaultExtension := ".mp3"
    extensions := [".mp3"]
    minBitRate := 8
    maxBitRate := 320
    channelModes := [2, 1, 0]
    vbr := "VBR"
    cbr := "CBR"
    abr := "ABR" }

/-- Registry values of `input.Mp3` — the same as `file.Mp3`, declared separately
in `src/input/input.go`. -/
def inputMp3 : Mp3FormatData :=
  { defaultExtension := ".mp3"
    extensions := [".mp3"]
    minBitRate := 8
    maxBitRate := 320
    channelModes := [2, 1, 0]
    vbr := "VBR"
    cbr := "CBR"
    abr := "ABR" }

/-- Extension set of `file.Flac`. -/
def fileFlacExtensions : List String := [".flac"]

/-- The bit-rate mode chosen by a validated mp3 configuration
(`mp3.VBR/CBR/ABR` wrappers around the numeric value). -/
inductive Mp3BitRateMode
  | vbr (q : Int)
  | cbr (rate : Int)
  | abr (rate : Int)
  deriving DecidableEq, Repr

/-- The encoder configuration captured by the closure returned from
`mp3Format.Build`/`BuildSink`: `SetQuality` is called only when
`useQuality` is set, hence the optional field. -/
structure Mp3Config where
  bitRateMode : Mp3BitRateMode
  channelMode : Int
  quality : Option Int
  deriving DecidableEq, Repr

/-- The encoder configuration captured by the closure returned from
`wavFormat.Build`/`BuildSink`. -/
structure WavConfig where
  bitDepth : Int
  deriving DecidableEq, Repr

/-- A validated sink of either supported output format
(the `input.Sink` union returned through `form.ParseSink`). -/
inductive SinkConfig
  | wav (c : WavConfig)
  | mp3 (c : Mp3Config)
  deriving DecidableEq, Repr

/-- Which pump `file.Pump` selects. -/
inductive PumpKind
  | wav
  | mp3
  | flac
  deriving DecidableEq, Repr

/-! ## file package: sink builders and pump resolution -/

/-- Go `file.hasExtension`: membership of an extension in a format's
extension set. -/
def hasExtensionFile (ext : String) (exts : List String) : Bool :=
  exts.contains ext

/-- Go `file.wavFormat.BuildSink` (identical validation in
`input.wavFormat.Build`): the bit depth must be in the format's set. -/
def wavBuildSink (f : WavFormatData) (bitDepth : Int) : Except BuildError WavConfig :=
  if f.bitDepths.contains bitDepth then .ok ⟨bitDepth⟩
  else .error (.unsupportedBitDepth bitDepth)

/-- Go `mp3Format.bitRate` (identical in file.go and input.go): range check
against `[MinBitRate, MaxBitRate]`. -/
def mp3BitRateCheck (f : Mp3FormatData) (v : Int) : Except BuildError Unit :=
  if v > f.maxBitRate ∨ v < f.minBitRate then .error (.unsupportedBitRate v)
  else .ok ()

/-- Go `file.mp3Format.BuildSink`: channel mode first, then the bit-rate
mode switch on `strings.ToUpper(bitRateMode)` selecting the rate range,
then the gated quality check. -/
def mp3BuildSink (f : Mp3FormatData) (bitRateMode : String) (bitRate channelMode : Int)
    (useQuality : Bool) (quality : Int) : Except BuildError Mp3Config :=
  if ¬ f.channelModes.contains channelMode then
    .error (.unsupportedChannelMode channelMode)
  else
    let m := strUpper bitRateMode
    let brmE : Except BuildError Mp3BitRateMode :=
      if m = f.vbr then
        if bitRate < 0 ∨ bitRate > 9 then .error (.unsupportedVBRQuality bitRate)
        else .ok (.vbr bitRate)
      else if m = f.cbr then
        match mp3BitRateCheck f bitRate with
        | .error e => .error e
        | .ok _ => .ok (.cbr bitRate)
      else if m = f.abr then
        match mp3BitRateCheck f bitRate with
        | .error e => .error e
        | .ok _ => .ok (.abr bitRate)
      else .error (.unsupportedBitRateMode bitRateMode)
    match brmE with
    | .error e => .error e
    | .ok brm =>
      if useQuality ∧ (quality < 0 ∨ quality > 9) then
        .error (.unsupportedQuality quality)
      else .ok ⟨brm, channelMode, if useQuality then some quality else none⟩

/-- Go `input.mp3Format.Build` (src/input/input.go): the same validation as
`file.mp3Format.BuildSink` except that the switch compares `bitRateMode`
verbatim, without upper-casing. -/
def inputMp3Build (f : Mp3FormatData) (bitRateMode : String) (bitRate channelMode : Int)
    (useQuality : Bool) (quality : Int) : Except BuildError Mp3Config :=
  if ¬ f.channelModes.contains channelMode then
    .error (.unsupportedChannelMode channelMode)
  else
    let m := bitRateMode
    let brmE : Except BuildError Mp3BitRateMode :=
      if m = f.vbr then
        if bitRate < 0 ∨ bitRate > 9 then .error (.unsupportedVBRQuality bitRate)
        else .ok (.vbr bitRate)
      else if m = f.cbr then
        match mp3BitRateCheck f bitRate with
        | .error e => .error e
        | .ok _ => .ok (.cbr bitRate)
      else if m = f.abr then
        match mp3BitRateCheck f bitRate with
        | .error e => .error e
        | .ok _ => .ok (.abr bitRate)
      else .error (.unsupportedBitRateMode bitRateMode)
    match brmE with
    | .error e => .error e
    | .ok brm =>
      if useQuality ∧ (quality < 0 ∨ quality > 9) then
        .error (.unsupportedQuality quality)
      else .ok ⟨brm, channelMode, if useQuality then some quality else none⟩

/-- The decision of an mp3 sink builder: the validated configuration on
acceptance, the reason class (constructor tag) on rejection. -/
def decisionOf (r : Except BuildError Mp3Config) : Except Nat Mp3Config :=
  r.mapError buildErrName

/-- Go `input.HasExtension` (src/input/input.go): lower-case the filename,
then suffix-compare against each extension. -/
def hasExtensionInput (fileName : String) (exts : List String) : Bool :=
  exts.any (fun ext => goHasSuffix (strLower fileName) ext)

/-- Go `file.Pump`: resolve the input format from the lower-cased file
extension against the registered extension sets, in source order
wav → mp3 → flac; otherwise "File has unsupported extension". -/
def filePump (fileName : String) : Except ParseErr PumpKind :=
  let ext := strLower (filepathExt fileName)
  if hasExtensionFile ext fileWav.extensions then .ok .wav
  else if hasExtensionFile ext fileMp3.extensions then .ok .mp3
  else if hasExtensionFile ext fileFlacExtensions then .ok .flac
  else .error (.unsupportedFormat fileName)

/-- The pump selected by `file.Pump`, forgetting the error payload. -/
def pumpChoice (fileName : String) : Option PumpKind :=
  match filePump fileName with
  | .ok k => some k
  | .error _ => none

/-! ## form package: form parsing -/

/-- Model of `url.Values` restricted to what `Get` observes: an association list;
`Get` returns the first value for the key, or `""` when absent. -/
def FormData : Type := List (String × String)

/-- Go `url.Values.Get`. -/
def getValue (d : FormData) (key : String) : String :=
  match d with
  | [] => ""
  | (k, v) :: rest => if k = key then v else getValue rest key

/-- Go `form.parseIntValue`: absent key is "not provided", unparsable value
is "Failed parsing". -/
def parseIntValue (d : FormData) (key name : String) : Except ParseErr Int :=
  let str := getValue d key
  if str = "" then .error (.notProvided name)
  else
    match goAtoi str with
    | none => .error (.malformedValue name str)
    | some v => .ok v

/-- Go `form.parseBoolValue`: absent key yields `false` with no error;
an unparsable value is "Failed parsing". -/
def parseBoolValue (d : FormData) (key name : String) : Except ParseErr Bool :=
  let str := getValue d key
  if str = "" then .ok false
  else
    match goParseBool str with
    | none => .error (.malformedValue name str)
    | some v => .ok v

/-- Modelled from the spec: `input.WAV.Sink`, called by
`form.parseWAVSink`, is not among the sources (only this caller is).
Per the ParameterValidator contract for the uncompressed format it
validates the bit depth against the domain `{8,16,24,32}` and wraps the
validated configuration — exactly the check the in-source
`wavFormat.Build` and `wavFormat.BuildSink` perform. -/
def inputWAVSink (bitDepth : Int) : Except ParseErr SinkConfig :=
  match wavBuildSink fileWav bitDepth with
  | .error e => .error (.build e)
  | .ok c => .ok (.wav c)

/-- Modelled from the spec: `input.MP3.Sink`, called by
`form.parseMP3Sink`, is not among the sources (only this caller is).
Per the ParameterValidator contract for the lossy format it validates
channel mode, bit-rate mode with its mode-dependent rate range, and the
gated quality — exactly the check the in-source `input.mp3Format.Build`
performs (verbatim mode comparison). -/
def inputMP3Sink (bitRateMode : String) (bitRate channelMode : Int)
    (useQuality : Bool) (quality : Int) : Except ParseErr SinkConfig :=
  match inputMp3Build inputMp3 bitRateMode bitRate channelMode useQuality quality with
  | .error e => .error (.build e)
  | .ok c => .ok (.mp3 c)

/-- Go `form.parseWAVSink`. -/
def parseWAVSink (d : FormData) : Except ParseErr SinkConfig :=
  match parseIntValue d "wav-bit-depth" "bit depth" with
  | .error e => .error e
  | .ok bitDepth => inputWAVSink bitDepth

/-- Go `form.parseMP3Sink`: channel mode, then the required bit-rate mode,
then the mode-dependent rate field (`mp3-vbr-quality` for VBR,
`mp3-bit-rate` for CBR/ABR; the Go switch has no default, leaving the
rate 0 for unrecognized modes), then the quality gate. -/
def parseMP3Sink (d : FormData) : Except ParseErr SinkConfig :=
  match parseIntValue d "mp3-channel-mode" "channel mode" with
  | .error e => .error e
  | .ok channelMode =>
    let bitRateMode := getValue d "mp3-bit-rate-mode"
    if bitRateMode = "" then .error (.notProvided "bit rate mode")
    else
      let bitRateE : Except ParseErr Int :=
        if bitRateMode = inputMp3.vbr then parseIntValue d "mp3-vbr-quality" "vbr quality"
        else if bitRateMode = inputMp3.cbr then parseIntValue d "mp3-bit-rate" "bit rate"
        else if bitRateMode = inputMp3.abr then parseIntValue d "mp3-bit-rate" "bit rate"
        else .ok 0
      match bitRateE with
      | .error e => .error e
      | .ok bitRate =>
        match parseBoolValue d "mp3-use-quality" "mp3 quality" with
        | .error e => .error e
        | .ok useQuality =>
          let qualityE : Except ParseErr Int :=
            if useQuality then parseIntValue d "mp3-quality" "mp3 quality" else .ok 0
          match qualityE with
          | .error e => .error e
          | .ok quality =>
            inputMP3Sink bitRateMode bitRate channelMode useQuality quality

/-- Go `form.Encode.ParseSink`: lower-case the requested output format name,
dispatch on it (`.wav`, `.mp3`, otherwise "Unsupported format"), and
blank the returned extension whenever an error occurred. -/
def parseSinkForm (d : FormData) : Except ParseErr SinkConfig × String :=
  let ext := strLower (getValue d "format")
  let r : Except ParseErr SinkConfig :=
    if ext = ".wav" then parseWAVSink d
    else if ext = ".mp3" then parseMP3Sink d
    else .error (.unsupportedFormat ext)
  match r with
  | .error e => (.error e, "")
  | .ok c => (.ok c, ext)

/-- Go `form.Encode`: the per-format maximum input size configuration. -/
structure Encode where
  wavMaxSize : Int
  mp3MaxSize : Int
  flacMaxSize : Int
  deriving DecidableEq, Repr

/-- Go `form.Encode.InputMaxSize`: key the configured limit by the
lower-cased last element of the request URL path, matched against the
formats' default extensions (mp3 → wav → flac in source order). -/
def inputMaxSize (c : Encode) (url : String) : Except ParseErr Int :=
  let ext := strLower (pathBase url)
  if ext = ".mp3" then .ok c.mp3MaxSize
  else if ext = ".wav" then .ok c.wavMaxSize
  else if ext = ".flac" then .ok c.flacMaxSize
  else .error (.unsupportedFormat ext)

/-! ## controller package: the Convert handler -/

/-- HTTP statuses the handler writes. -/
inductive HttpStatus
  | ok
  | badRequest
  | internalServerError
  deriving DecidableEq, Repr

/-- Observable events on the output resource (the temporary file). -/
inductive ResEvent
  | tempFileCreated
  | tempFileCleanedUp
  deriving DecidableEq, Repr

/-- The request as the POST branch of `controller.Convert` observes it. -/
structure ConvRequest where
  /-- Value of `r.URL.Path`, set by the form to the input file extension. -/
  urlPath : String
  /-- bytes of the request body (`http.MaxBytesReader` rejects bodies
  exceeding the limit). -/
  bodySize : Nat
  /-- the multipart body is otherwise well-formed. -/
  multipartOk : Bool
  /-- Whether `r.FormFile` finds the uploaded file part. -/
  formFileOk : Bool
  /-- the uploaded file's declared name. -/
  fileName : String
  /-- Contents of `r.Form`, the parsed key/value fields. -/
  form : FormData

/-- Injected outcomes of the handler's stateful collaborators. -/
structure ConvWorld where
  /-- Whether `ioutil.TempFile` succeeds. -/
  tempFileOk : Bool
  /-- the decode→encode pipeline (`convert`) succeeds. -/
  pipelineOk : Bool
  /-- Whether `tempFile.Seek(0, 0)` succeeds. -/
  seekOk : Bool
  /-- Whether `tempFile.Stat()` succeeds. -/
  statOk : Bool
  /-- Whether `io.Copy(w, tempFile)` delivers the result to the caller. -/
  copyOk : Bool
  /-- Whether `f.Close()` inside `cleanUp` succeeds. -/
  closeOk : Bool
  /-- Whether `os.Remove(f.Name())` inside `cleanUp` succeeds. -/
  removeOk : Bool

/-- What one request produces: the response status, the ordered trace of
output-resource events, and how many failures `cleanUp` logged. -/
structure ConvResult where
  status : HttpStatus
  events : List ResEvent
  cleanupLogs : Nat
  deriving DecidableEq, Repr

/-- The POST branch of `controller.Convert` (src/input/input.go),
linearized: max-size lookup and multipart parse, the file part, pump
resolution, `ParseSink` validation, temp-file creation, the deferred
`cleanUp`, the pipeline run, seek/stat finalization and the transfer.
`cleanUp` itself (lines 394–404) closes and removes the temporary file,
logging each failure; it runs once, after every path that follows the
successful `TempFile` call. -/
def convertPost (cfg : Encode) (req : ConvRequest) (w : ConvWorld) : ConvResult :=
  match inputMaxSize cfg req.urlPath with
  | .error _ => ⟨.badRequest, [], 0⟩
  | .ok maxSize =>
    if ¬ ((req.bodySize : Int) ≤ maxSize ∧ req.multipartOk = true) then
      ⟨.badRequest, [], 0⟩
    else if ¬ req.formFileOk then ⟨.badRequest, [], 0⟩
    else
      match filePump req.fileName with
      | .error _ => ⟨.badRequest, [], 0⟩
      | .ok _ =>
        match (parseSinkForm req.form).1 with
        | .error _ => ⟨.badRequest, [], 0⟩
        | .ok _ =>
          if ¬ w.tempFileOk then ⟨.internalServerError, [], 0⟩
          else
            let bodyStatus : HttpStatus :=
              if ¬ w.pipelineOk then .badRequest
              else if ¬ w.seekOk then .internalServerError
              else if ¬ w.statOk then .internalServerError
              else if ¬ w.copyOk then .internalServerError
              else .ok
            let logs :=
              (if w.closeOk then 0 else 1) + (if w.removeOk then 0 else 1)
            ⟨bodyStatus, [.tempFileCreated, .tempFileCleanedUp], logs⟩

/-! ## Concrete fixtures for evaluation -/

/-- Output `"mp3"` with `{channelMode: 2, bitRateMode: "CBR"}` and no
`bitRate` — the spec's missing-parameter scenario. -/
def mp3MissingRateForm : FormData :=
  [("format", ".mp3"), ("mp3-channel-mode", "2"), ("mp3-bit-rate-mode", "CBR")]

/-- A fully valid mp3 request: `{channelMode: 2, bitRateMode: "VBR",
vbrQuality: 4}`. -/
def validMp3Form : FormData :=
  [("format", ".mp3"), ("mp3-channel-mode", "2"),
   ("mp3-bit-rate-mode", "VBR"), ("mp3-vbr-quality", "4")]

/-- Output `"wav"` with the out-of-domain bit depth 11. -/
def wav11Form : FormData :=
  [("format", ".wav"), ("wav-bit-depth", "11")]

/-- A valid wav request at bit depth 16. -/
def validWavForm : FormData :=
  [("format", ".wav"), ("wav-bit-depth", "16")]

/-- A well-formed upload of `track.wav` carrying the given form fields. -/
def wavUpload (d : FormData) : ConvRequest :=
  { urlPath := "/.wav", bodySize := 4, multipartOk := true,
    formFileOk := true, fileName := "track.wav", form := d }

/-- A well-formed upload of `track.mp3` (1 body byte) requesting a valid
wav output. -/
def mp3Upload1Byte : ConvRequest :=
  { urlPath := "/.mp3", bodySize := 1, multipartOk := true,
    formFileOk := true, fileName := "track.mp3", form := validWavForm }

/-- Generous limits for every format. -/
def cfgStd : Encode := ⟨1000, 1000, 1000⟩

/-- The mp3 input limit configured to 0. -/
def cfgMp3Zero : Encode := ⟨1000, 0, 1000⟩

/-- Every collaborator succeeds. -/
def worldAllOk : ConvWorld := ⟨true, true, true, true, true, true, true⟩

/-- The pipeline run fails mid-stream; everything else succeeds. -/
def worldPipeFail : ConvWorld := ⟨true, false, true, true, true, true, true⟩

/-! ## Helper lemmas on characters and strings -/

theorem charToNat_ofNat {n : Nat} (h : n.isValidChar) : (Char.ofNat n).toNat = n := by
  simp [Char.ofNat, dif_pos h, Char.ofNatAux, Char.toNat, UInt32.toNat, BitVec.toNat_ofNatLt]

theorem char_eq_iff_toNat {c d : Char} : c = d ↔ c.toNat = d.toNat := by
  constructor
  · intro h; rw [h]
  · intro h
    apply Char.ext
    apply UInt32.ext
    exact h

theorem toNat_toLower (c : Char) :
    c.toLower.toNat = if 65 ≤ c.toNat ∧ c.toNat ≤ 90 then c.toNat + 32 else c.toNat := by
  unfold Char.toLower
  split
  · rename_i h
    rw [if_pos (by omega)]
    exact charToNat_ofNat (Or.inl (by omega))
  · rename_i h
    rw [if_neg (by omega)]

theorem toLower_toLower (c : Char) : c.toLower.toLower = c.toLower := by
  rw [char_eq_iff_toNat, toNat_toLower, toNat_toLower]
  by_cases h : 65 ≤ c.toNat ∧ c.toNat ≤ 90 <;> (simp [h]; try omega)

theorem toLower_eq_dot {c : Char} : c.toLower = '.' ↔ c = '.' := by
  rw [char_eq_iff_toNat, char_eq_iff_toNat, toNat_toLower]
  have h46 : ('.' : Char).toNat = 46 := by decide
  rw [h46]
  split <;> omega

theorem toLower_eq_slash {c : Char} : c.toLower = '/' ↔ c = '/' := by
  rw [char_eq_iff_toNat, char_eq_iff_toNat, toNat_toLower]
  have h47 : ('/' : Char).toNat = 47 := by decide
  rw [h47]
  split <;> omega

theorem extScanRev_map_toLower (l : List Char) :
    extScanRev (l.map Char.toLower) = (extScanRev l).map (List.map Char.toLower) := by
  induction l with
  | nil => rfl
  | cons c rest ih =>
    by_cases hs : c = '/'
    · subst hs
      have h : Char.toLower '/' = '/' := by decide
      simp [extScanRev, h]
    · by_cases hd : c = '.'
      · subst hd
        have h : Char.toLower '.' = '.' := by decide
        simp [extScanRev, h]
      · have hs' : ¬ Char.toLower c = '/' := fun h => hs (toLower_eq_slash.mp h)
        have hd' : ¬ Char.toLower c = '.' := fun h => hd (toLower_eq_dot.mp h)
        simp only [List.map_cons, extScanRev, if_neg hs', if_neg hd', if_neg hs, if_neg hd, ih]
        cases extScanRev rest <;> simp

theorem strLower_strLower (s : String) : strLower (strLower s) = strLower s := by
  unfold strLower
  congr 1
  show (s.data.map Char.toLower).map Char.toLower = s.data.map Char.toLower
  rw [List.map_map]
  exact List.map_congr_left (fun a _ => toLower_toLower a)

theorem filepathExt_strLower (s : String) :
    filepathExt (strLower s) = strLower (filepathExt s) := by
  unfold filepathExt strLower
  show (match extScanRev ((s.data.map Char.toLower).reverse) with
        | none => ""
        | some l => ⟨l.reverse⟩) = _
  rw [← List.map_reverse, extScanRev_map_toLower]
  cases extScanRev s.data.reverse with
  | none => rfl
  | some l =>
    show (⟨(l.map Char.toLower).reverse⟩ : String) = ⟨l.reverse.map Char.toLower⟩
    rw [← List.map_reverse]

/-! ## Helper lemmas on form lookup -/

theorem getValue_cons_eq (k v : String) (d : FormData) : getValue ((k, v) :: d) k = v := by
  simp [getValue]

theorem getValue_cons_ne (k v : String) (d : FormData) (key : String) (h : k ≠ key) :
    getValue ((k, v) :: d) key = getValue d key := by
  simp [getValue, h]

theorem parseIntValue_cons_ne (k v : String) (d : FormData) (key name : String)
    (h : k ≠ key) :
    parseIntValue ((k, v) :: d) key name = parseIntValue d key name := by
  unfold parseIntValue
  rw [getValue_cons_ne k v d key h]

theorem parseBoolValue_cons_ne (k v : String) (d : FormData) (key name : String)
    (h : k ≠ key) :
    parseBoolValue ((k, v) :: d) key name = parseBoolValue d key name := by
  unfold parseBoolValue
  rw [getValue_cons_ne k v d key h]

theorem parseWAVSink_cons_ne (k v : String) (d : FormData) (h : k ≠ "wav-bit-depth") :
    parseWAVSink ((k, v) :: d) = parseWAVSink d := by
  unfold parseWAVSink
  rw [parseIntValue_cons_ne k v d "wav-bit-depth" "bit depth" h]

theorem parseMP3Sink_cons_ne (k v : String) (d : FormData)
    (h1 : k ≠ "mp3-channel-mode") (h2 : k ≠ "mp3-bit-rate-mode")
    (h3 : k ≠ "mp3-vbr-quality") (h4 : k ≠ "mp3-bit-rate")
    (h5 : k ≠ "mp3-use-quality") (h6 : k ≠ "mp3-quality") :
    parseMP3Sink ((k, v) :: d) = parseMP3Sink d := by
  unfold parseMP3Sink
  have e1 := parseIntValue_cons_ne k v d "mp3-channel-mode" "channel mode" h1
  have e2 := getValue_cons_ne k v d "mp3-bit-rate-mode" h2
  have e3 := parseIntValue_cons_ne k v d "mp3-vbr-quality" "vbr quality" h3
  have e4 := parseIntValue_cons_ne k v d "mp3-bit-rate" "bit rate" h4
  have e5 := parseBoolValue_cons_ne k v d "mp3-use-quality" "mp3 quality" h5
  have e6 := parseIntValue_cons_ne k v d "mp3-quality" "mp3 quality" h6
  simp only [e1, e2, e3, e4, e5, e6]

/-! ## Helper lemmas on the Convert handler -/

theorem convertPost_of_parse_error (cfg : Encode) (req : ConvRequest) (w : ConvWorld)
    (h : isErr (parseSinkForm req.form).1 = true) :
    convertPost cfg req w = ⟨.badRequest, [], 0⟩ := by
  unfold convertPost
  cases hm : inputMaxSize cfg req.urlPath with
  | error e => rfl
  | ok maxSize =>
    dsimp only
    by_cases hsz : ¬ ((req.bodySize : Int) ≤ maxSize ∧ req.multipartOk = true)
    · rw [if_pos hsz]
    · rw [if_neg hsz]
      by_cases hff : ¬ req.formFileOk = true
      · rw [if_pos hff]
      · rw [if_neg hff]
        cases hfp : filePump req.fileName with
        | error e => rfl
        | ok k =>
          dsimp only
          cases hps : (parseSinkForm req.form).1 with
          | error e => rfl
          | ok c =>
            rw [hps] at h
            simp [isErr] at h

theorem convertPost_events_shape (cfg : Encode) (req : ConvRequest) (w : ConvWorld) :
    (convertPost cfg req w).events = []
      ∨ (convertPost cfg req w).events = [.tempFileCreated, .tempFileCleanedUp] := by
  unfold convertPost
  cases hm : inputMaxSize cfg req.urlPath with
  | error e => exact Or.inl rfl
  | ok maxSize =>
    dsimp only
    by_cases hsz : ¬ ((req.bodySize : Int) ≤ maxSize ∧ req.multipartOk = true)
    · rw [if_pos hsz]; exact Or.inl rfl
    · rw [if_neg hsz]
      by_cases hff : ¬ req.formFileOk = true
      · rw [if_pos hff]; exact Or.inl rfl
      · rw [if_neg hff]
        cases hfp : filePump req.fileName with
        | error e => exact Or.inl rfl
        | ok k =>
          dsimp only
          cases hps : (parseSinkForm req.form).1 with
          | error e => exact Or.inl rfl
          | ok c =>
            by_cases ht : ¬ w.tempFileOk = true
            · rw [if_pos ht]; exact Or.inl rfl
            · rw [if_neg ht]; exact Or.inr rfl

/-! ## Claims -/

/-- C1: whenever `ParseSink` rejects the output parameters, the handler
answers 400 without ever creating the temporary output file: a rejected
request performs no output-resource acquisition. -/
theorem c1_rejected_validation_acquires_no_resource (cfg : Encode) (req : ConvRequest)
    (w : ConvWorld) (h : isErr (parseSinkForm req.form).1 = true) :
    ResEvent.tempFileCreated ∉ (convertPost cfg req w).events := by
  rw [convertPost_of_parse_error cfg req w h]
  simp

/-- Witness for C1, on the spec's scenario: output `"mp3"` with
`{channelMode: 2, bitRateMode: "CBR"}` and no `bitRate` is rejected
(missing parameter) and no resource is acquired. -/
theorem c1_witness :
    isErr (parseSinkForm mp3MissingRateForm).1 = true
      ∧ parseMP3Sink mp3MissingRateForm = .error (.notProvided "bit rate")
      ∧ ResEvent.tempFileCreated
          ∉ (convertPost cfgStd (wavUpload mp3MissingRateForm) worldAllOk).events :=
  ⟨by decide, by decide,
   c1_rejected_validation_acquires_no_resource cfgStd (wavUpload mp3MissingRateForm)
     worldAllOk (by decide)⟩

/-- C2: whenever the temporary output file was created, the deferred
release step runs exactly once on every terminal path — delivery,
pipeline failure, or any finalization failure. -/
theorem c2_release_runs_exactly_once (cfg : Encode) (req : ConvRequest) (w : ConvWorld)
    (h : ResEvent.tempFileCreated ∈ (convertPost cfg req w).events) :
    (convertPost cfg req w).events.count ResEvent.tempFileCleanedUp = 1 := by
  rcases convertPost_events_shape cfg req w with he | he
  · rw [he] at h
    simp at h
  · rw [he]
    decide

/-- Witness for C2: a pipeline failure injected mid-stream on a valid
request still releases the acquired resource exactly once. -/
theorem c2_witness :
    ResEvent.tempFileCreated
        ∈ (convertPost cfgStd (wavUpload validMp3Form) worldPipeFail).events
      ∧ (convertPost cfgStd (wavUpload validMp3Form) worldPipeFail).events.count
          ResEvent.tempFileCleanedUp = 1 :=
  ⟨by decide,
   c2_release_runs_exactly_once cfgStd (wavUpload validMp3Form) worldPipeFail (by decide)⟩

/-- C4 (failing evaluation): the per-format size limit is keyed by
format, but a configured limit of 0 does not mean "unlimited": the
handler wraps the body in `http.MaxBytesReader(w, body, 0)`, so the very
same 1-byte upload that succeeds under a positive mp3 limit is rejected
with 400 under limit 0, before any validation or acquisition. -/
theorem c4_zero_limit_rejects_uploads :
    inputMaxSize cfgMp3Zero "/.mp3" = .ok 0
      ∧ (convertPost cfgMp3Zero mp3Upload1Byte worldAllOk).status = .badRequest
      ∧ (convertPost cfgMp3Zero mp3Upload1Byte worldAllOk).events = []
      ∧ (convertPost cfgStd mp3Upload1Byte worldAllOk).status = .ok := by
  refine ⟨by decide, by decide, by decide, by decide⟩

/-- C6: building a wav sink succeeds exactly for bit depths in
`{8,16,24,32}`; bit depth 11 is rejected with the unsupported-value
error, and a request carrying it acquires no output resource under any
configuration and any collaborator behaviour. -/
theorem c6_wav_bit_depth_domain :
    (∀ b : Int, isErr (wavBuildSink fileWav b) = false ↔ (b = 8 ∨ b = 16 ∨ b = 24 ∨ b = 32))
      ∧ wavBuildSink fileWav 11 = .error (.unsupportedBitDepth 11)
      ∧ (parseSinkForm wav11Form).1 = .error (.build (.unsupportedBitDepth 11))
      ∧ ∀ (cfg : Encode) (w : ConvWorld),
          ResEvent.tempFileCreated ∉ (convertPost cfg (wavUpload wav11Form) w).events := by
  refine ⟨?_, by decide, by decide, ?_⟩
  · intro b
    unfold wavBuildSink
    by_cases h : (fileWav.bitDepths.contains b) = true
    · rw [if_pos h]
      have hb : b ∈ ([8, 16, 24, 32] : List Int) := by
        have := List.elem_iff.mp h
        simpa [fileWav] using this
      simp [isErr]
      simpa using hb
    · rw [if_neg h]
      have hb : b ∉ ([8, 16, 24, 32] : List Int) := by
        intro hmem
        exact h (by simpa [fileWav] using List.elem_iff.mpr hmem)
      simp [isErr]
      refine ⟨?_, ?_, ?_, ?_⟩ <;> (rintro rfl; exact hb (by simp))
  · intro cfg w
    rw [convertPost_of_parse_error cfg (wavUpload wav11Form) w (by decide)]
    simp

/-- C8: the release step (`cleanUp`) only logs its failures — flipping
the close/remove outcomes changes neither the response status nor the
resource-event trace, so a cleanup failure never turns a delivered
success into an error. -/
theorem c8_cleanup_failure_never_masks_outcome (cfg : Encode) (req : ConvRequest)
    (w : ConvWorld) (c r : Bool) :
    (convertPost cfg req { w with closeOk := c, removeOk := r }).status
        = (convertPost cfg req w).status
      ∧ (convertPost cfg req { w with closeOk := c, removeOk := r }).events
        = (convertPost cfg req w).events := by
  obtain ⟨t, p, sk, st, cp, cl, rm⟩ := w
  unfold convertPost
  cases hm : inputMaxSize cfg req.urlPath with
  | error e => exact ⟨rfl, rfl⟩
  | ok maxSize =>
    dsimp only
    by_cases hsz : ¬ ((req.bodySize : Int) ≤ maxSize ∧ req.multipartOk = true)
    · rw [if_pos hsz, if_pos hsz]; exact ⟨rfl, rfl⟩
    · rw [if_neg hsz, if_neg hsz]
      by_cases hff : ¬ req.formFileOk = true
      · rw [if_pos hff, if_pos hff]; exact ⟨rfl, rfl⟩
      · rw [if_neg hff, if_neg hff]
        cases hfp : filePump req.fileName with
        | error e => exact ⟨rfl, rfl⟩
        | ok k =>
          dsimp only
          cases hps : (parseSinkForm req.form).1 with
          | error e => exact ⟨rfl, rfl⟩
          | ok cnf =>
            by_cases ht : ¬ t = true
            · rw [if_pos ht, if_pos ht]; exact ⟨rfl, rfl⟩
            · rw [if_neg ht, if_neg ht]; exact ⟨rfl, rfl⟩

/-- C9 (counterexample): the two mp3 sink builders disagree on the tuple
`("vbr", 4, 2, false, 0)` — `file.Mp3.BuildSink` accepts it (it
upper-cases the mode first), `input.Mp3.Build` rejects it. -/
theorem c9_counterexample :
    isErr (mp3BuildSink fileMp3 "vbr" 4 2 false 0) = false
      ∧ isErr (inputMp3Build inputMp3 "vbr" 4 2 false 0) = true := by
  refine ⟨by decide, by decide⟩

/-- C9 (amended): the two builders agree on every tuple up to
upper-casing of the mode string — `file.Mp3.BuildSink(mode, …)` decides
exactly as `input.Mp3.Build(toUpper(mode), …)`, with equal validated
configurations and equal rejection reason classes; in particular they
agree whenever the mode string is already upper-case. -/
theorem c9_builders_agree_after_uppercasing (m : String) (br cm : Int) (uq : Bool)
    (q : Int) :
    decisionOf (mp3BuildSink fileMp3 m br cm uq q)
      = decisionOf (inputMp3Build inputMp3 (strUpper m) br cm uq q) := by
  unfold mp3BuildSink inputMp3Build mp3BitRateCheck
  dsimp only [fileMp3, inputMp3]
  by_cases hcm : ¬ (([2, 1, 0] : List Int).contains cm = true)
  · rw [if_pos hcm, if_pos hcm]
  · rw [if_neg hcm, if_neg hcm]
    by_cases h1 : strUpper m = "VBR"
    · rw [if_pos h1, if_pos h1]
    · rw [if_neg h1, if_neg h1]
      by_cases h2 : strUpper m = "CBR"
      · rw [if_pos h2, if_pos h2]
      · rw [if_neg h2, if_neg h2]
        by_cases h3 : strUpper m = "ABR"
        · rw [if_pos h3, if_pos h3]
        · rw [if_neg h3, if_neg h3]
          rfl

/-- C3: in `file.Mp3.BuildSink`, once the channel mode (checked first)
is valid, the numeric rate is validated against the range selected by
the previously-resolved bit-rate mode — VBR against [0,9], CBR and ABR
against [MinBitRate, MaxBitRate] = [8,320] — and a mode string whose
upper-casing matches none of the three is rejected as an unsupported
mode regardless of the rate, so the mode is resolved before its
dependent numeric parameter is validated. -/
theorem c3_rate_range_selected_by_mode (m : String) (br cm : Int) (uq : Bool) (q : Int)
    (hcm : fileMp3.channelModes.contains cm = true) :
    (fileMp3.minBitRate = 8 ∧ fileMp3.maxBitRate = 320)
      ∧ (¬ (strUpper m = "VBR" ∨ strUpper m = "CBR" ∨ strUpper m = "ABR") →
          mp3BuildSink fileMp3 m br cm uq q = .error (.unsupportedBitRateMode m))
      ∧ (strUpper m = "VBR" →
          (mp3BuildSink fileMp3 m br cm uq q = .error (.unsupportedVBRQuality br)
            ↔ ¬ (0 ≤ br ∧ br ≤ 9)))
      ∧ ((strUpper m = "CBR" ∨ strUpper m = "ABR") →
          (mp3BuildSink fileMp3 m br cm uq q = .error (.unsupportedBitRate br)
            ↔ ¬ (8 ≤ br ∧ br ≤ 320))) := by
  have hcm' : ¬ ¬ (fileMp3.channelModes.contains cm = true) := not_not_intro hcm
  refine ⟨⟨rfl, rfl⟩, ?_, ?_, ?_⟩
  · intro h
    have h1 : ¬ strUpper m = fileMp3.vbr := fun hh => h (Or.inl hh)
    have h2 : ¬ strUpper m = fileMp3.cbr := fun hh => h (Or.inr (Or.inl hh))
    have h3 : ¬ strUpper m = fileMp3.abr := fun hh => h (Or.inr (Or.inr hh))
    unfold mp3BuildSink
    dsimp only
    rw [if_neg hcm', if_neg h1, if_neg h2, if_neg h3]
  · intro h1
    unfold mp3BuildSink
    dsimp only
    rw [if_neg hcm', if_pos (show strUpper m = fileMp3.vbr from h1)]
    by_cases hbr : br < 0 ∨ br > 9
    · rw [if_pos hbr]
      constructor
      · intro _; omega
      · intro _; rfl
    · rw [if_neg hbr]
      dsimp only
      by_cases hq : uq = true ∧ (q < 0 ∨ q > 9)
      · rw [if_pos hq]
        constructor
        · intro he; cases he
        · intro hk; omega
      · rw [if_neg hq]
        constructor
        · intro he; cases he
        · intro hk; omega
  · intro h
    have hVBRne : ¬ strUpper m = fileMp3.vbr := by
      rcases h with h2 | h3
      · rw [h2]; decide
      · rw [h3]; decide
    unfold mp3BuildSink mp3BitRateCheck
    dsimp only
    rw [if_neg hcm', if_neg hVBRne]
    rcases h with h2 | h3
    · rw [if_pos (show strUpper m = fileMp3.cbr from h2)]
      by_cases hbr : br > fileMp3.maxBitRate ∨ br < fileMp3.minBitRate
      · rw [if_pos hbr]
        simp only [fileMp3] at hbr
        constructor
        · intro _; omega
        · intro _; rfl
      · rw [if_neg hbr]
        simp only [fileMp3] at hbr
        dsimp only
        by_cases hq : uq = true ∧ (q < 0 ∨ q > 9)
        · rw [if_pos hq]
          constructor
          · intro he; cases he
          · intro hk; omega
        · rw [if_neg hq]
          constructor
          · intro he; cases he
          · intro hk; omega
    · have hCBRne : ¬ strUpper m = fileMp3.cbr := by rw [h3]; decide
      rw [if_neg hCBRne, if_pos (show strUpper m = fileMp3.abr from h3)]
      by_cases hbr : br > fileMp3.maxBitRate ∨ br < fileMp3.minBitRate
      · rw [if_pos hbr]
        simp only [fileMp3] at hbr
        constructor
        · intro _; omega
        · intro _; rfl
      · rw [if_neg hbr]
        simp only [fileMp3] at hbr
        dsimp only
        by_cases hq : uq = true ∧ (q < 0 ∨ q > 9)
        · rw [if_pos hq]
          constructor
          · intro he; cases he
          · intro hk; omega
        · rw [if_neg hq]
          constructor
          · intro he; cases he
          · intro hk; omega

/-- Witness for C3: mode `"Cbr"` (resolved to CBR by upper-casing) with
rate 5 is rejected by the CBR/ABR range check, while mode `"xbr"` with a
wildly invalid rate is rejected as an unsupported mode, not a rate
error. -/
theorem c3_witness :
    mp3BuildSink fileMp3 "Cbr" 5 2 false 0 = .error (.unsupportedBitRate 5)
      ∧ mp3BuildSink fileMp3 "xbr" 500 2 false 0 = .error (.unsupportedBitRateMode "xbr") :=
  ⟨((c3_rate_range_selected_by_mode "Cbr" 5 2 false 0 (by decide)).2.2.2
      (Or.inl (by decide))).mpr (by decide),
   (c3_rate_range_selected_by_mode "xbr" 500 2 false 0 (by decide)).2.1 (by decide)⟩

/-- C5: the quality override is gated — when `mp3-use-quality` parses to
false (or is absent), the `mp3-quality` field is ignored entirely and
the built configuration omits the quality; when the gate is true, a
missing `mp3-quality` fails the request, and a built configuration
carries a quality that was validated against [0,9]. -/
theorem c5_quality_gate :
    (∀ (v : String) (d : FormData),
        parseBoolValue d "mp3-use-quality" "mp3 quality" = .ok false →
        parseMP3Sink (("mp3-quality", v) :: d) = parseMP3Sink d)
      ∧ (∀ d : FormData,
          parseBoolValue d "mp3-use-quality" "mp3 quality" = .ok true →
          getValue d "mp3-quality" = "" →
          isErr (parseMP3Sink d) = true)
      ∧ (∀ (b : String) (br cm q : Int) (c : Mp3Config),
          mp3BuildSink fileMp3 b br cm false q = .ok c → c.quality = none)
      ∧ (∀ (b : String) (br cm q : Int) (c : Mp3Config),
          mp3BuildSink fileMp3 b br cm true q = .ok c →
          (0 ≤ q ∧ q ≤ 9 ∧ c.quality = some q)) := by
  refine ⟨?_, ?_, ?_, ?_⟩
  · intro v d hg
    have e1 := parseIntValue_cons_ne "mp3-quality" v d "mp3-channel-mode" "channel mode"
      (by decide)
    have e2 := getValue_cons_ne "mp3-quality" v d "mp3-bit-rate-mode" (by decide)
    have e3 := parseIntValue_cons_ne "mp3-quality" v d "mp3-vbr-quality" "vbr quality"
      (by decide)
    have e4 := parseIntValue_cons_ne "mp3-quality" v d "mp3-bit-rate" "bit rate"
      (by decide)
    have e5 := parseBoolValue_cons_ne "mp3-quality" v d "mp3-use-quality" "mp3 quality"
      (by decide)
    unfold parseMP3Sink
    simp only [e1, e2, e3, e4, e5, hg]
    rfl
  · intro d hg hq
    have hqe : parseIntValue d "mp3-quality" "mp3 quality"
        = .error (.notProvided "mp3 quality") := by
      unfold parseIntValue
      rw [hq]
      simp
    unfold parseMP3Sink
    simp only [hg, hqe]
    cases hc : parseIntValue d "mp3-channel-mode" "channel mode" with
    | error e => rfl
    | ok cm =>
      dsimp only
      by_cases hm : getValue d "mp3-bit-rate-mode" = ""
      · rw [if_pos hm]
        rfl
      · rw [if_neg hm]
        split
        · rfl
        · rfl
  · intro b br cm q c h
    unfold mp3BuildSink at h
    dsimp only at h
    repeat' split at h
    all_goals simp_all
    all_goals (rw [← h])
  · intro b br cm q c h
    unfold mp3BuildSink at h
    dsimp only at h
    repeat' split at h
    all_goals simp_all
    all_goals (rw [← h])

/-- Witness for C5: an unparsable `mp3-quality` is ignored when the gate
is absent; a missing `mp3-quality` fails when the gate is `"true"`; and
concrete accepted configurations omit or carry the quality as the gate
dictates. -/
theorem c5_witness :
    parseMP3Sink (("mp3-quality", "junk")
          :: [("mp3-channel-mode", "2"), ("mp3-bit-rate-mode", "VBR"),
              ("mp3-vbr-quality", "4")])
        = parseMP3Sink
            [("mp3-channel-mode", "2"), ("mp3-bit-rate-mode", "VBR"),
             ("mp3-vbr-quality", "4")]
      ∧ isErr (parseMP3Sink
          [("mp3-channel-mode", "2"), ("mp3-bit-rate-mode", "VBR"),
           ("mp3-vbr-quality", "4"), ("mp3-use-quality", "true")]) = true
      ∧ (⟨.vbr 4, 2, none⟩ : Mp3Config).quality = none
      ∧ (0 ≤ (5 : Int) ∧ (5 : Int) ≤ 9
          ∧ (⟨.vbr 4, 2, some 5⟩ : Mp3Config).quality = some 5) :=
  ⟨c5_quality_gate.1 "junk" _ (by decide),
   c5_quality_gate.2.1 _ (by decide) (by decide),
   c5_quality_gate.2.2.1 "VBR" 4 2 7 ⟨.vbr 4, 2, none⟩ (by decide),
   c5_quality_gate.2.2.2 "VBR" 4 2 5 ⟨.vbr 4, 2, some 5⟩ (by decide)⟩

/-- C7: input-format resolution is case-insensitive and depends only on
the file extension, failing with an unsupported-format error when no
registered extension matches; output-format resolution by name is
likewise case-insensitive and fails with an unsupported-format error
(and a blank extension) for unknown names.  Both resolutions are pure
functions of their inputs. -/
theorem c7_format_resolution :
    (∀ n : String, pumpChoice (strLower n) = pumpChoice n)
      ∧ (∀ n₁ n₂ : String, filepathExt n₁ = filepathExt n₂ →
          pumpChoice n₁ = pumpChoice n₂)
      ∧ (∀ n : String,
          (¬ strLower (filepathExt n) = ".wav") → (¬ strLower (filepathExt n) = ".wave") →
          (¬ strLower (filepathExt n) = ".mp3") → (¬ strLower (filepathExt n) = ".flac") →
          filePump n = .error (.unsupportedFormat n))
      ∧ (∀ (v : String) (d : FormData),
          parseSinkForm (("format", strLower v) :: d)
            = parseSinkForm (("format", v) :: d))
      ∧ (∀ d : FormData,
          (¬ strLower (getValue d "format") = ".wav") →
          (¬ strLower (getValue d "format") = ".mp3") →
          parseSinkForm d
            = (.error (.unsupportedFormat (strLower (getValue d "format"))), "")) := by
  refine ⟨?_, ?_, ?_, ?_, ?_⟩
  · intro n
    unfold pumpChoice filePump
    rw [filepathExt_strLower, strLower_strLower]
    by_cases hw : hasExtensionFile (strLower (filepathExt n)) fileWav.extensions = true
    · rw [if_pos hw, if_pos hw]
    · rw [if_neg hw, if_neg hw]
      by_cases hm : hasExtensionFile (strLower (filepathExt n)) fileMp3.extensions = true
      · rw [if_pos hm, if_pos hm]
      · rw [if_neg hm, if_neg hm]
        by_cases hf : hasExtensionFile (strLower (filepathExt n)) fileFlacExtensions = true
        · rw [if_pos hf, if_pos hf]
        · rw [if_neg hf, if_neg hf]
  · intro n₁ n₂ h
    unfold pumpChoice filePump
    rw [h]
    by_cases hw : hasExtensionFile (strLower (filepathExt n₂)) fileWav.extensions = true
    · rw [if_pos hw, if_pos hw]
    · rw [if_neg hw, if_neg hw]
      by_cases hm : hasExtensionFile (strLower (filepathExt n₂)) fileMp3.extensions = true
      · rw [if_pos hm, if_pos hm]
      · rw [if_neg hm, if_neg hm]
        by_cases hf : hasExtensionFile (strLower (filepathExt n₂)) fileFlacExtensions = true
        · rw [if_pos hf, if_pos hf]
        · rw [if_neg hf, if_neg hf]
  · intro n h1 h2 h3 h4
    have hw : ¬ (hasExtensionFile (strLower (filepathExt n)) fileWav.extensions = true) := by
      intro hc
      have := List.elem_iff.mp hc
      simp [fileWav] at this
      rcases this with e1 | e2
      · exact h1 e1
      · exact h2 e2
    have hm : ¬ (hasExtensionFile (strLower (filepathExt n)) fileMp3.extensions = true) := by
      intro hc
      have := List.elem_iff.mp hc
      simp [fileMp3] at this
      exact h3 this
    have hf : ¬ (hasExtensionFile (strLower (filepathExt n)) fileFlacExtensions = true) := by
      intro hc
      have := List.elem_iff.mp hc
      simp [fileFlacExtensions] at this
      exact h4 this
    unfold filePump
    rw [if_neg hw, if_neg hm, if_neg hf]
  · intro v d
    have e1 : parseWAVSink (("format", strLower v) :: d) = parseWAVSink d :=
      parseWAVSink_cons_ne "format" (strLower v) d (by decide)
    have e2 : parseWAVSink (("format", v) :: d) = parseWAVSink d :=
      parseWAVSink_cons_ne "format" v d (by decide)
    have e3 : parseMP3Sink (("format", strLower v) :: d) = parseMP3Sink d :=
      parseMP3Sink_cons_ne "format" (strLower v) d (by decide) (by decide) (by decide)
        (by decide) (by decide) (by decide)
    have e4 : parseMP3Sink (("format", v) :: d) = parseMP3Sink d :=
      parseMP3Sink_cons_ne "format" v d (by decide) (by decide) (by decide)
        (by decide) (by decide) (by decide)
    unfold parseSinkForm
    rw [getValue_cons_eq, getValue_cons_eq, strLower_strLower]
    simp only [e1, e2, e3, e4]
  · intro d h1 h2
    unfold parseSinkForm
    dsimp only
    rw [if_neg h1, if_neg h2]

/-- Witness for C7: two distinct filenames sharing the extension `.wav`
resolve identically; `track.ogg` fails with the unsupported-extension
error; and an output request for `.ogg` fails with the
unsupported-format error and a blank extension. -/
theorem c7_witness :
    pumpChoice "a.wav" = pumpChoice "b/c.wav"
      ∧ filePump "track.ogg" = .error (.unsupportedFormat "track.ogg")
      ∧ parseSinkForm [("format", ".ogg")] = (.error (.unsupportedFormat ".ogg"), "") :=
  ⟨c7_format_resolution.2.1 "a.wav" "b/c.wav" (by decide),
   c7_format_resolution.2.2.1 "track.ogg" (by decide) (by decide) (by decide) (by decide),
   c7_format_resolution.2.2.2.2 [("format", ".ogg")] (by decide) (by decide)⟩

/-- C10: `Encode.ParseSink` returns a non-empty output extension exactly
when it returns no error; on any failure the returned extension is the
empty string. -/
theorem c10_ext_nonempty_iff_ok (d : FormData) :
    isErr (parseSinkForm d).1 = false ↔ (parseSinkForm d).2 ≠ "" := by
  unfold parseSinkForm
  by_cases h1 : strLower (getValue d "format") = ".wav"
  · simp only [h1, if_pos]
    cases hw : parseWAVSink d <;> simp [isErr]
  · by_cases h2 : strLower (getValue d "format") = ".mp3"
    · simp only [h1, h2, if_neg, if_pos]
      cases hm : parseMP3Sink d <;> simp [isErr]
    · simp [h1, h2, isErr]

end Phono
